import Mathlib

/-!
Shallow embedding of the metrics sampling and cache-refresh subsystem of
`src/backend/server.js` (an Express system monitor).

JavaScript numbers are modelled by `JSNum`: either a finite rational or one
of the IEEE-754 special values NaN, +Infinity, -Infinity.  The arithmetic
operations used by the source (`-`, `*`, `/`, `Math.floor`, `Math.round`,
`Math.min`, `Math.max`) are given their JavaScript semantics on these
values; finite arithmetic is exact rational arithmetic, which agrees with
double-precision arithmetic on all the concrete inputs considered here.
-/

/-- A JavaScript number: a finite value, NaN, +Infinity or -Infinity. -/
inductive JSNum where
  | num (q : ℚ)
  | nan
  | inf
  | ninf
deriving DecidableEq, Repr

/-- JavaScript subtraction `a - b`. -/
def jsSub : JSNum → JSNum → JSNum
  | .num a, .num b => .num (a - b)
  | .num _, .inf => .ninf
  | .num _, .ninf => .inf
  | .inf, .num _ => .inf
  | .ninf, .num _ => .ninf
  | .inf, .ninf => .inf
  | .ninf, .inf => .ninf
  | _, _ => .nan

/-- JavaScript multiplication `a * b`. -/
def jsMul : JSNum → JSNum → JSNum
  | .num a, .num b => .num (a * b)
  | .num a, .inf => if a = 0 then .nan else if 0 < a then .inf else .ninf
  | .num a, .ninf => if a = 0 then .nan else if 0 < a then .ninf else .inf
  | .inf, .num b => if b = 0 then .nan else if 0 < b then .inf else .ninf
  | .ninf, .num b => if b = 0 then .nan else if 0 < b then .ninf else .inf
  | .inf, .inf => .inf
  | .inf, .ninf => .ninf
  | .ninf, .inf => .ninf
  | .ninf, .ninf => .inf
  | _, _ => .nan

/-- JavaScript division `a / b`: division by (positive) zero yields
`NaN` for a zero numerator and a signed infinity otherwise. -/
def jsDiv : JSNum → JSNum → JSNum
  | .num a, .num b =>
      if b = 0 then (if a = 0 then .nan else if 0 < a then .inf else .ninf)
      else .num (a / b)
  | .num _, .inf => .num 0
  | .num _, .ninf => .num 0
  | .inf, .num b => if 0 ≤ b then .inf else .ninf
  | .ninf, .num b => if 0 ≤ b then .ninf else .inf
  | _, _ => .nan

/-- JavaScript `Math.floor`; NaN and the infinities are returned unchanged. -/
def jsFloor : JSNum → JSNum
  | .num q => .num ((⌊q⌋ : ℤ) : ℚ)
  | x => x

/-- JavaScript `Math.round` (round half towards +Infinity); NaN and the
infinities are returned unchanged. -/
def jsRound : JSNum → JSNum
  | .num q => .num ((⌊q + 1/2⌋ : ℤ) : ℚ)
  | x => x

/-- JavaScript `Math.max` on two arguments: NaN-propagating maximum. -/
def jsMax : JSNum → JSNum → JSNum
  | .nan, _ => .nan
  | _, .nan => .nan
  | .inf, _ => .inf
  | _, .inf => .inf
  | .ninf, x => x
  | x, .ninf => x
  | .num a, .num b => .num (max a b)

/-- JavaScript `Math.min` on two arguments: NaN-propagating minimum. -/
def jsMin : JSNum → JSNum → JSNum
  | .nan, _ => .nan
  | _, .nan => .nan
  | .ninf, _ => .ninf
  | _, .ninf => .ninf
  | .inf, x => x
  | x, .inf => x
  | .num a, .num b => .num (min a b)

/-- Whether a JavaScript number is finite (neither NaN nor an infinity). -/
def JSNum.isFinite : JSNum → Bool
  | .num _ => true
  | _ => false

/-- Whether a JavaScript number is a finite value lying in `[lo, hi]`. -/
def JSNum.between (x : JSNum) (lo hi : ℚ) : Prop :=
  ∃ q : ℚ, x = JSNum.num q ∧ lo ≤ q ∧ q ≤ hi

/-- JavaScript `Math.round` restricted to a finite argument, as an integer.
Used to state the rounding steps of `getMemoryUsage` over ℚ. -/
def jsRoundInt (x : ℚ) : ℤ := ⌊x + 1/2⌋

/-!
CPU sampler (`cpuAverage` and `getCPUUsage` in the source).

`os.cpus()` is modelled as a list of per-core tick records.  `cpuAverage`
sums every tick category (the `for type in cpu.times` loop) into `total`
and the idle ticks into `idle`, each divided by the number of cores.
`getCPUUsage` is a function of its two `cpuAverage` measurements; the
1000 ms `setTimeout` separating them is real time and is not part of the
value-level computation.
-/

/-- One core's `cpu.times` record from `os.cpus()`. -/
structure CPUTimes where
  user : ℚ
  nice : ℚ
  sys : ℚ
  idle : ℚ
  irq : ℚ
deriving DecidableEq, Repr

/-- Sum of all tick categories of one core, as accumulated by the
`for type in cpu.times` loop. -/
def CPUTimes.tickSum (t : CPUTimes) : ℚ :=
  t.user + t.nice + t.sys + t.idle + t.irq

/-- Result of `cpuAverage()`: per-core average idle and total ticks. -/
structure CPUMeasure where
  idle : ℚ
  total : ℚ
deriving DecidableEq, Repr

/-- `cpuAverage()` from the source: averages idle and total ticks over all
logical cores. -/
def cpuAverage (cpus : List CPUTimes) : CPUMeasure :=
  let totalIdle := (cpus.map CPUTimes.idle).sum
  let totalTick := (cpus.map CPUTimes.tickSum).sum
  { idle := totalIdle / (cpus.length : ℚ), total := totalTick / (cpus.length : ℚ) }

/-- `getCPUUsage()` from the source, as a function of its two tick
measurements: `100 - Math.floor(100 * idleDifference / totalDifference)`
passed through `Math.max(0, Math.min(100, _))`. -/
def getCPUUsage (startMeasure endMeasure : CPUMeasure) : JSNum :=
  let idleDifference := endMeasure.idle - startMeasure.idle
  let totalDifference := endMeasure.total - startMeasure.total
  let cpuPercentage :=
    jsSub (.num 100)
      (jsFloor (jsDiv (jsMul (.num 100) (.num idleDifference)) (.num totalDifference)))
  jsMax (.num 0) (jsMin (.num 100) cpuPercentage)

/-!
Memory reader (`getMemoryUsage` in the source), as a function of the byte
counts returned by `os.totalmem()` and `os.freemem()`.
-/

/-- The record returned by `getMemoryUsage()`. -/
structure MemoryInfo where
  total : ℚ
  used : ℚ
  free : ℚ
  usagePercent : JSNum
deriving DecidableEq, Repr

/-- `getMemoryUsage()` from the source: bytes are converted to GB and
rounded to 2 decimal places, `used` is derived from the two rounded GB
values, and `usagePercent = Math.round((used / total) * 100)` with
JavaScript division semantics (unguarded when `total` is zero). -/
def getMemoryUsage (totalBytes freeBytes : ℕ) : MemoryInfo :=
  let totalMemGB : ℚ := ((jsRoundInt ((totalBytes : ℚ) / 1024 / 1024 / 1024 * 100) : ℤ) : ℚ) / 100
  let freeMemGB : ℚ := ((jsRoundInt ((freeBytes : ℚ) / 1024 / 1024 / 1024 * 100) : ℤ) : ℚ) / 100
  let usedMemGB : ℚ := ((jsRoundInt ((totalMemGB - freeMemGB) * 100) : ℤ) : ℚ) / 100
  { total := totalMemGB
    used := usedMemGB
    free := freeMemGB
    usagePercent := jsRound (jsMul (jsDiv (.num usedMemGB) (.num totalMemGB)) (.num 100)) }

/-!
Process collector (`getProcesses` in the source).

Strings are processed by structurally recursive helpers over `String.data`
so that every definition is executable and kernel-reducible.  `jsTrim`,
`jsSplitChar` and `splitWhitespaceWords` model `String.prototype.trim`,
`split('\n')` and `split(/\s+/)` (the last applied to trimmed input, where
the two agree up to an empty-string column that is falsy either way).
`parseFloatOpt` models the decimal forms `parseFloat` meets in `ps`
output: optional sign, digits, optional fraction; `none` stands for NaN.
-/

/-- JavaScript `trim()`: strip leading and trailing whitespace. -/
def jsTrim (s : String) : String :=
  List.asString (((s.data.dropWhile Char.isWhitespace).reverse.dropWhile Char.isWhitespace).reverse)

/-- Split a character list at every occurrence of `c`, keeping empty
segments, as JavaScript `split` does. -/
def splitOnCharList (c : Char) : List Char → List (List Char)
  | [] => [[]]
  | x :: xs =>
      let r := splitOnCharList c xs
      if x = c then [] :: r
      else
        match r with
        | [] => [[x]]
        | h :: t => (x :: h) :: t

/-- JavaScript `s.split(c)` for a single-character separator. -/
def jsSplitChar (c : Char) (s : String) : List String :=
  (splitOnCharList c s.data).map List.asString

/-- Accumulating splitter for maximal runs of non-separator characters. -/
def fieldsAux (p : Char → Bool) (cur : List Char) : List Char → List (List Char)
  | [] => if cur.isEmpty then [] else [cur.reverse]
  | c :: cs =>
      if p c then
        if cur.isEmpty then fieldsAux p [] cs
        else cur.reverse :: fieldsAux p [] cs
      else fieldsAux p (c :: cur) cs

/-- JavaScript `line.trim().split(/\s+/)`: whitespace-separated words. -/
def splitWhitespaceWords (s : String) : List String :=
  (fieldsAux Char.isWhitespace [] s.data).map List.asString

/-- Numeric value of a list of decimal digit characters. -/
def natOfDigits (ds : List Char) : ℕ :=
  ds.foldl (fun a c => a * 10 + (c.toNat - 48)) 0

/-- JavaScript `parseFloat` on the decimal formats produced by the process
listing: `none` models a NaN result (no digits found). -/
def parseFloatOpt (s : String) : Option ℚ :=
  let cs := s.data.dropWhile Char.isWhitespace
  let signed : ℚ × List Char :=
    match cs with
    | '-' :: rest => (-1, rest)
    | '+' :: rest => (1, rest)
    | _ => (1, cs)
  let intDigits := signed.2.takeWhile Char.isDigit
  let rest := signed.2.dropWhile Char.isDigit
  let fracDigits :=
    match rest with
    | '.' :: r => r.takeWhile Char.isDigit
    | _ => []
  if intDigits.isEmpty && fracDigits.isEmpty then none
  else
    some (signed.1 *
      ((natOfDigits intDigits : ℚ) + (natOfDigits fracDigits : ℚ) / (10 : ℚ) ^ fracDigits.length))

/-- JavaScript string `a || b`: the empty string (or a missing column
defaulted to it) is falsy and selects `b`. -/
def jsOrString (s dflt : String) : String :=
  if s = "" then dflt else s

/-- One entry of the process list served by the backend. -/
structure ProcessRecord where
  id : ℤ
  name : String
  pid : String
  cpu : ℚ
  memory : ℚ
  status : String
deriving DecidableEq, Repr

/-- JavaScript `Array.prototype.map` with its index argument, starting the
index at `n`. -/
def mapIdxFrom {α β : Type} (f : ℕ → α → β) : ℕ → List α → List β
  | _, [] => []
  | i, a :: as => f i a :: mapIdxFrom f (i + 1) as

/-- The Unix branch of the per-line parser in `getProcesses`: whitespace
columns `[pid, ppid, %cpu, %mem, comm]`, memory scaled by 10. -/
def parseUnixLine (index : ℕ) (line : String) : ProcessRecord :=
  let columns := splitWhitespaceWords line
  { id := (index : ℤ) + 1
    name := jsOrString (columns.getD 4 "") "Unknown"
    pid := jsOrString (columns.getD 0 "") "0"
    cpu := (parseFloatOpt (columns.getD 2 "")).getD 0
    memory := ((parseFloatOpt (columns.getD 3 "")).map (fun q => q * 10)).getD 0
    status := "Running" }

/-- The Unix branch of `getProcesses`: drop the `ps` header line, then map
each remaining line with its index. -/
def parseUnix (stdout : String) : List ProcessRecord :=
  mapIdxFrom parseUnixLine 0 ((jsSplitChar '\n' (jsTrim stdout)).drop 1)

/-- The Windows branch of the per-line parser: comma-separated quoted
fields; `rand index` gives the record's two `Math.random()` draws in
`[0,1)`, scaled to the placeholder CPU and memory values. -/
def parseWindowsLine (rand : ℕ → ℚ × ℚ) (index : ℕ) (line : String) : ProcessRecord :=
  let columns := (line.splitOn "\",\"").map (fun col => col.replace "\"" "")
  { id := (index : ℤ) + 1
    name := jsOrString (columns.getD 0 "") "Unknown"
    pid := jsOrString (columns.getD 1 "") "0"
    cpu := (rand index).1 * 30
    memory := (rand index).2 * 1000
    status := "Running" }

/-- The Windows branch of `getProcesses`: take the first 15 lines (the
header is already removed by `findstr`), map each with its index. -/
def parseWindows (rand : ℕ → ℚ × ℚ) (stdout : String) : List ProcessRecord :=
  mapIdxFrom (parseWindowsLine rand) 0 ((jsSplitChar '\n' (jsTrim stdout)).take 15)

/-- The five hard-coded demonstration records prepended by `getProcesses`.
Their ids come from five consecutive `Date.now()` reads `s0 … s4` plus the
offsets `0 … 4`. -/
def simulatedProcesses (s0 s1 s2 s3 s4 : ℤ) : List ProcessRecord :=
  [ { id := s0, name := "chrome.exe", pid := "1234", cpu := 25.5, memory := 856.2, status := "Running" }
  , { id := s1 + 1, name := "node.exe", pid := "5678", cpu := 12.3, memory := 342.1, status := "Running" }
  , { id := s2 + 2, name := "code.exe", pid := "9012", cpu := 8.7, memory := 623.4, status := "Running" }
  , { id := s3 + 3, name := "firefox.exe", pid := "3456", cpu := 15.2, memory := 721.8, status := "Running" }
  , { id := s4 + 4, name := "explorer.exe", pid := "7890", cpu := 3.1, memory := 124.5, status := "Running" } ]

/-- Outcome of the `exec` callback: failure (non-null `error`) or success
with the command's stdout.  The parse code inside the `try` block is total
in this model, so the `catch` branch (which also resolves `[]`) has no
reachable counterpart beyond `fail`. -/
inductive ExecResult where
  | fail
  | ok (stdout : String)

/-- `getProcesses()` from the source, as a function of the platform flag,
the `exec` outcome, the random draws and the five `Date.now()` reads: on
failure it resolves `[]`; on success it resolves the five simulated
records followed by at most ten parsed records. -/
def getProcesses (isWindows : Bool) (res : ExecResult) (rand : ℕ → ℚ × ℚ)
    (s0 s1 s2 s3 s4 : ℤ) : List ProcessRecord :=
  match res with
  | .fail => []
  | .ok stdout =>
      let processes := if isWindows then parseWindows rand stdout else parseUnix stdout
      simulatedProcesses s0 s1 s2 s3 s4 ++ processes.take 10

/-!
Metrics cache (`systemCache`, `updateSystemCache` and the two cached API
routes in the source).

A refresh is driven by the outside world only through: the two `cpuAverage`
measurements, the two memory byte counts, the platform flag, the `exec`
outcome, the random draws, the five `Date.now()` reads inside
`simulatedProcesses` and the two `Date.now()` reads in the cache literal
(`usage.timestamp` first, `lastUpdate` second).  `Environment` packages one
refresh cycle's readings; `updateSystemCache` is the pure function of them
that builds the replacement cache record.  In this model nothing inside the
`try` of `updateSystemCache` can throw (every promise in the source
resolves), so the `catch` branch is unreachable and a triggered refresh
always succeeds.
-/

/-- The `usage` record stored in the cache by `updateSystemCache`. -/
structure UsageSnapshot where
  cpu : JSNum
  ramTotal : ℚ
  ramUsed : ℚ
  ramPercent : JSNum
  timestamp : ℤ
deriving DecidableEq, Repr

/-- The shared `systemCache` record. -/
structure SystemCache where
  usage : UsageSnapshot
  processes : List ProcessRecord
  lastUpdate : ℤ
deriving DecidableEq, Repr

/-- The environment readings consumed by one refresh cycle. -/
structure Environment where
  startCpus : List CPUTimes
  endCpus : List CPUTimes
  totalmem : ℕ
  freemem : ℕ
  isWindows : Bool
  execResult : ExecResult
  rand : ℕ → ℚ × ℚ
  s0 : ℤ
  s1 : ℤ
  s2 : ℤ
  s3 : ℤ
  s4 : ℤ
  t1 : ℤ
  t2 : ℤ

/-- `updateSystemCache()` from the source: gather CPU, processes and memory
from one cycle's readings and replace the whole cache record.  `t1` is the
`Date.now()` read stored in `usage.timestamp`, `t2` the later read stored
in `lastUpdate`. -/
def updateSystemCache (env : Environment) : SystemCache :=
  let cpu := getCPUUsage (cpuAverage env.startCpus) (cpuAverage env.endCpus)
  let processes :=
    getProcesses env.isWindows env.execResult env.rand env.s0 env.s1 env.s2 env.s3 env.s4
  let memory := getMemoryUsage env.totalmem env.freemem
  { usage :=
      { cpu := cpu
        ramTotal := memory.total
        ramUsed := memory.used
        ramPercent := memory.usagePercent
        timestamp := env.t1 }
    processes := processes
    lastUpdate := env.t2 }

/-- Handler of `GET /api/usage`: refresh when the cache is more than
3000 ms old, then serve `systemCache.usage`.  Returns the cache left behind
and the served snapshot. -/
def usageRoute (now : ℤ) (env : Environment) (cache : SystemCache) :
    SystemCache × UsageSnapshot :=
  if 3000 < now - cache.lastUpdate then
    let c := updateSystemCache env
    (c, c.usage)
  else (cache, cache.usage)

/-- Handler of `GET /api/processes`: refresh when the cache is more than
5000 ms old, then serve `systemCache.processes`.  Returns the cache left
behind and the served list. -/
def processesRoute (now : ℤ) (env : Environment) (cache : SystemCache) :
    SystemCache × List ProcessRecord :=
  if 5000 < now - cache.lastUpdate then
    let c := updateSystemCache env
    (c, c.processes)
  else (cache, cache.processes)

/-!
Theorems.  Claim ids C1 … C10 refer to the frozen claim list for this
repository.
-/

/-- C1 (counterexample): when the listing command fails, `getProcesses`
resolves the empty list, not the five synthetic records the claim
predicts — the synthetic records are dropped together with the real
ones. -/
theorem C1_failure_empty_counterexample :
    getProcesses false ExecResult.fail (fun _ => (0, 0)) 100 101 102 103 104 ≠
      simulatedProcesses 100 101 102 103 104 ∧
    (getProcesses false ExecResult.fail (fun _ => (0, 0)) 100 101 102 103 104).length = 0 :=
  ⟨by decide, rfl⟩

/-- C1 (amended): when the external listing command fails, `getProcesses`
still resolves successfully — the failure is never propagated — but the
resolved list is empty: zero synthetic and zero real records. -/
theorem C1_failure_resolves_empty (isWindows : Bool) (rand : ℕ → ℚ × ℚ)
    (s0 s1 s2 s3 s4 : ℤ) :
    getProcesses isWindows ExecResult.fail rand s0 s1 s2 s3 s4 = [] := rfl

/-- C2: at the failing input of two identical tick samples (idle delta 0,
total delta 0) the unguarded division `0/0` produces NaN, which
`Math.min`/`Math.max` propagate — the sampler returns NaN instead of the
0 required by the claimed contract, and NaN lies in no interval. -/
theorem C2_totalDelta_zero_yields_nan :
    getCPUUsage ⟨500, 1000⟩ ⟨500, 1000⟩ = JSNum.nan := by
  norm_num [getCPUUsage, jsMul, jsDiv, jsFloor, jsSub, jsMin, jsMax]

/-- C3 (counterexample): `usage.timestamp` and `lastUpdate` come from two
separate `Date.now()` reads; when the clock ticks between them
(`t1 = 1000`, `t2 = 1001`) the refreshed cache violates
`usage.sampledAt == lastUpdate`. -/
theorem C3_two_clock_reads_counterexample :
    (updateSystemCache
        { startCpus := [], endCpus := [], totalmem := 0, freemem := 0,
          isWindows := false, execResult := ExecResult.fail, rand := fun _ => (0, 0),
          s0 := 0, s1 := 0, s2 := 0, s3 := 0, s4 := 0,
          t1 := 1000, t2 := 1001 }).usage.timestamp ≠
      (updateSystemCache
        { startCpus := [], endCpus := [], totalmem := 0, freemem := 0,
          isWindows := false, execResult := ExecResult.fail, rand := fun _ => (0, 0),
          s0 := 0, s1 := 0, s2 := 0, s3 := 0, s4 := 0,
          t1 := 1000, t2 := 1001 }).lastUpdate := by decide

/-- C3 (amended): a successful refresh replaces the cache record wholesale
with values all drawn from the same cycle's readings — the stored
processes, CPU and memory fields are exactly this cycle's collector,
sampler and reader results — and `usage.timestamp = lastUpdate` holds
whenever the two `Date.now()` reads of the cycle return the same value
(they are separate reads and can differ by a clock tick). -/
theorem C3_refresh_atomic (env : Environment) (h : env.t1 = env.t2) :
    (updateSystemCache env).usage.timestamp = (updateSystemCache env).lastUpdate ∧
    (updateSystemCache env).processes =
      getProcesses env.isWindows env.execResult env.rand env.s0 env.s1 env.s2 env.s3 env.s4 ∧
    (updateSystemCache env).usage.cpu =
      getCPUUsage (cpuAverage env.startCpus) (cpuAverage env.endCpus) ∧
    (updateSystemCache env).usage.ramTotal = (getMemoryUsage env.totalmem env.freemem).total ∧
    (updateSystemCache env).usage.ramUsed = (getMemoryUsage env.totalmem env.freemem).used ∧
    (updateSystemCache env).usage.ramPercent =
      (getMemoryUsage env.totalmem env.freemem).usagePercent :=
  ⟨h, rfl, rfl, rfl, rfl, rfl⟩

/-- C3 (witness): at a cycle whose two clock reads agree, the refreshed
cache satisfies `usage.timestamp = lastUpdate`. -/
theorem C3_refresh_atomic_witness :
    (updateSystemCache
        ⟨[], [], 0, 0, false, ExecResult.fail, fun _ => (0, 0),
          0, 0, 0, 0, 0, 5000, 5000⟩).usage.timestamp =
      (updateSystemCache
        ⟨[], [], 0, 0, false, ExecResult.fail, fun _ => (0, 0),
          0, 0, 0, 0, 0, 5000, 5000⟩).lastUpdate :=
  (C3_refresh_atomic
    ⟨[], [], 0, 0, false, ExecResult.fail, fun _ => (0, 0),
      0, 0, 0, 0, 0, 5000, 5000⟩ rfl).1

/-- C4: a usage read refreshes before answering exactly when
`now - lastUpdate > 3000` ms (3 time units) and a processes read exactly
when `now - lastUpdate > 5000` ms (5 time units); otherwise the cached
value is served unchanged; and a triggered refresh installs the whole
`updateSystemCache` record, i.e. updates usage and processes together. -/
theorem C4_staleness_thresholds (now : ℤ) (env : Environment) (cache : SystemCache) :
    (3000 < now - cache.lastUpdate →
      usageRoute now env cache = (updateSystemCache env, (updateSystemCache env).usage)) ∧
    (now - cache.lastUpdate ≤ 3000 →
      usageRoute now env cache = (cache, cache.usage)) ∧
    (5000 < now - cache.lastUpdate →
      processesRoute now env cache =
        (updateSystemCache env, (updateSystemCache env).processes)) ∧
    (now - cache.lastUpdate ≤ 5000 →
      processesRoute now env cache = (cache, cache.processes)) := by
  refine ⟨fun h => ?_, fun h => ?_, fun h => ?_, fun h => ?_⟩
  · simp only [usageRoute, if_pos h]
  · simp only [usageRoute, if_neg (not_lt.mpr h)]
  · simp only [processesRoute, if_pos h]
  · simp only [processesRoute, if_neg (not_lt.mpr h)]

/-- C4 (witness): with `lastUpdate = 0`, a usage read at 3100 ms refreshes
while one at 2900 ms serves the cache, and a processes read at 5100 ms
refreshes while one at 4900 ms serves the cache. -/
theorem C4_staleness_thresholds_witness :
    usageRoute 3100 ⟨[], [], 0, 0, false, ExecResult.fail, fun _ => (0, 0),
        0, 0, 0, 0, 0, 3100, 3100⟩ ⟨⟨JSNum.num 0, 0, 0, JSNum.num 0, 0⟩, [], 0⟩ =
      (updateSystemCache ⟨[], [], 0, 0, false, ExecResult.fail, fun _ => (0, 0),
          0, 0, 0, 0, 0, 3100, 3100⟩,
        (updateSystemCache ⟨[], [], 0, 0, false, ExecResult.fail, fun _ => (0, 0),
          0, 0, 0, 0, 0, 3100, 3100⟩).usage) ∧
    usageRoute 2900 ⟨[], [], 0, 0, false, ExecResult.fail, fun _ => (0, 0),
        0, 0, 0, 0, 0, 2900, 2900⟩ ⟨⟨JSNum.num 0, 0, 0, JSNum.num 0, 0⟩, [], 0⟩ =
      (⟨⟨JSNum.num 0, 0, 0, JSNum.num 0, 0⟩, [], 0⟩,
        (⟨⟨JSNum.num 0, 0, 0, JSNum.num 0, 0⟩, [], 0⟩ : SystemCache).usage) ∧
    processesRoute 5100 ⟨[], [], 0, 0, false, ExecResult.fail, fun _ => (0, 0),
        0, 0, 0, 0, 0, 5100, 5100⟩ ⟨⟨JSNum.num 0, 0, 0, JSNum.num 0, 0⟩, [], 0⟩ =
      (updateSystemCache ⟨[], [], 0, 0, false, ExecResult.fail, fun _ => (0, 0),
          0, 0, 0, 0, 0, 5100, 5100⟩,
        (updateSystemCache ⟨[], [], 0, 0, false, ExecResult.fail, fun _ => (0, 0),
          0, 0, 0, 0, 0, 5100, 5100⟩).processes) ∧
    processesRoute 4900 ⟨[], [], 0, 0, false, ExecResult.fail, fun _ => (0, 0),
        0, 0, 0, 0, 0, 4900, 4900⟩ ⟨⟨JSNum.num 0, 0, 0, JSNum.num 0, 0⟩, [], 0⟩ =
      (⟨⟨JSNum.num 0, 0, 0, JSNum.num 0, 0⟩, [], 0⟩,
        (⟨⟨JSNum.num 0, 0, 0, JSNum.num 0, 0⟩, [], 0⟩ : SystemCache).processes) :=
  ⟨(C4_staleness_thresholds 3100 _ _).1 (by decide),
    (C4_staleness_thresholds 2900 _ _).2.1 (by decide),
    (C4_staleness_thresholds 5100 _ _).2.2.1 (by decide),
    (C4_staleness_thresholds 4900 _ _).2.2.2 (by decide)⟩

/-- C5: for samples whose total tick delta is nonzero, `getCPUUsage`
computes `100 - floor(100 * idleDelta / totalDelta)` clamped to `[0,100]`;
in particular idle delta 800 with total delta 1000 yields 20. -/
theorem C5_cpu_delta_formula :
    (∀ s e : CPUMeasure, e.total - s.total ≠ 0 →
      getCPUUsage s e =
        JSNum.num (max 0 (min 100
          ((100 : ℚ) - ((⌊100 * (e.idle - s.idle) / (e.total - s.total)⌋ : ℤ) : ℚ))))) ∧
    getCPUUsage ⟨0, 0⟩ ⟨800, 1000⟩ = JSNum.num 20 := by
  constructor
  · intro s e h
    simp only [getCPUUsage, jsMul, jsDiv, if_neg h, jsFloor, jsSub, jsMin, jsMax]
  · norm_num [getCPUUsage, jsMul, jsDiv, jsFloor, jsSub, jsMin, jsMax]

/-- C5 (witness): the delta formula evaluated at idle delta 800 and total
delta 1000. -/
theorem C5_cpu_delta_formula_witness :
    getCPUUsage ⟨0, 0⟩ ⟨800, 1000⟩ =
      JSNum.num (max 0 (min 100 ((100 : ℚ) - ((⌊(100 : ℚ) * (800 - 0) / (1000 - 0)⌋ : ℤ) : ℚ)))) :=
  C5_cpu_delta_formula.1 ⟨0, 0⟩ ⟨800, 1000⟩ (by norm_num)

/-- C8: on a successful collection the returned list is exactly the five
synthetic demonstration records followed by at most ten real parsed
records, in that order, on both platform variants. -/
theorem C8_success_synthetic_then_real (isWindows : Bool) (stdout : String)
    (rand : ℕ → ℚ × ℚ) (s0 s1 s2 s3 s4 : ℤ) :
    (getProcesses isWindows (ExecResult.ok stdout) rand s0 s1 s2 s3 s4).take 5 =
      simulatedProcesses s0 s1 s2 s3 s4 ∧
    (getProcesses isWindows (ExecResult.ok stdout) rand s0 s1 s2 s3 s4).drop 5 =
      (if isWindows then parseWindows rand stdout else parseUnix stdout).take 10 ∧
    ((getProcesses isWindows (ExecResult.ok stdout) rand s0 s1 s2 s3 s4).drop 5).length ≤ 10 := by
  have h : getProcesses isWindows (ExecResult.ok stdout) rand s0 s1 s2 s3 s4 =
      simulatedProcesses s0 s1 s2 s3 s4 ++
        (if isWindows then parseWindows rand stdout else parseUnix stdout).take 10 := rfl
  refine ⟨?_, ?_, ?_⟩
  · rw [h]; exact List.take_left' rfl
  · rw [h]; exact List.drop_left' rfl
  · rw [h]
    have h5 : (simulatedProcesses s0 s1 s2 s3 s4).length = 5 := rfl
    rw [List.drop_left' h5, List.length_take]
    exact min_le_left _ _

/-!
Helper lemmas about `getMemoryUsage`, plus the spec-side formulas of §4.2
used to state the refinement claim C6.
-/

/-- The spec's byte→GB conversion, before rounding. -/
def specBytesToGB (b : ℕ) : ℚ := (b : ℚ) / 1024 / 1024 / 1024

/-- The spec's rounding to 2 decimal places (round half up). -/
def specRound2 (x : ℚ) : ℚ := ((⌊x * 100 + 1/2⌋ : ℤ) : ℚ) / 100

/-- The spec's integer rounding `round(x)` (round half up). -/
def specRoundNearest (x : ℚ) : ℤ := ⌊x + 1/2⌋

theorem floor_intCast_add_half (n : ℤ) : ⌊(n : ℚ) + 1/2⌋ = n := by
  rw [Int.floor_int_add]
  norm_num

theorem jsRoundInt_sub_div (a b : ℤ) :
    jsRoundInt ((((a : ℚ) / 100) - ((b : ℚ) / 100)) * 100) = a - b := by
  have h : (((a : ℚ) / 100) - ((b : ℚ) / 100)) * 100 = ((a - b : ℤ) : ℚ) := by
    push_cast
    ring
  rw [jsRoundInt, h, floor_intCast_add_half]

theorem getMemoryUsage_total_def (t f : ℕ) :
    (getMemoryUsage t f).total =
      ((jsRoundInt ((t : ℚ) / 1024 / 1024 / 1024 * 100) : ℤ) : ℚ) / 100 := rfl

theorem getMemoryUsage_free_def (t f : ℕ) :
    (getMemoryUsage t f).free =
      ((jsRoundInt ((f : ℚ) / 1024 / 1024 / 1024 * 100) : ℤ) : ℚ) / 100 := rfl

/-- In `getMemoryUsage` the outer rounding of `usedMemGB` is the identity,
because the difference of two 2-decimal values is again a 2-decimal
value: `used = total - free` exactly. -/
theorem getMemoryUsage_used_eq (t f : ℕ) :
    (getMemoryUsage t f).used = (getMemoryUsage t f).total - (getMemoryUsage t f).free := by
  rw [getMemoryUsage_total_def, getMemoryUsage_free_def]
  show ((jsRoundInt ((((jsRoundInt ((t : ℚ) / 1024 / 1024 / 1024 * 100) : ℤ) : ℚ) / 100 -
      ((jsRoundInt ((f : ℚ) / 1024 / 1024 / 1024 * 100) : ℤ) : ℚ) / 100) * 100) : ℤ) : ℚ) / 100 = _
  rw [jsRoundInt_sub_div]
  push_cast
  ring

theorem getMemoryUsage_percent_def (t f : ℕ) :
    (getMemoryUsage t f).usagePercent =
      jsRound (jsMul (jsDiv (JSNum.num (getMemoryUsage t f).used)
        (JSNum.num (getMemoryUsage t f).total)) (JSNum.num 100)) := rfl

theorem getMemoryUsage_percent_eq (t f : ℕ) (h : (getMemoryUsage t f).total ≠ 0) :
    (getMemoryUsage t f).usagePercent =
      JSNum.num ((⌊(getMemoryUsage t f).used / (getMemoryUsage t f).total * 100 + 1/2⌋ : ℤ) : ℚ) := by
  rw [getMemoryUsage_percent_def]
  simp only [jsDiv, if_neg h, jsMul, jsRound]

/-- C6: byte counts are converted to GB rounded to 2 decimal places first,
`usedGB` is derived as `round(total,2) - round(free,2)` (not from raw
bytes), `usedPercent` is the integer `round(usedGB/totalGB*100)`; and
16 GB total with 4 GB free gives `usedGB = 12.00`, `usedPercent = 75`. -/
theorem C6_memory_rounding_order :
    (∀ t f : ℕ,
      (getMemoryUsage t f).total = specRound2 (specBytesToGB t) ∧
      (getMemoryUsage t f).free = specRound2 (specBytesToGB f) ∧
      (getMemoryUsage t f).used = specRound2 (specBytesToGB t) - specRound2 (specBytesToGB f) ∧
      ((getMemoryUsage t f).total ≠ 0 →
        (getMemoryUsage t f).usagePercent =
          JSNum.num ((specRoundNearest
            ((getMemoryUsage t f).used / (getMemoryUsage t f).total * 100) : ℤ) : ℚ))) ∧
    getMemoryUsage (16 * 1024 ^ 3) (4 * 1024 ^ 3) = ⟨16, 12, 4, JSNum.num 75⟩ := by
  constructor
  · intro t f
    refine ⟨rfl, rfl, ?_, ?_⟩
    · rw [getMemoryUsage_used_eq]
      rfl
    · intro h
      rw [getMemoryUsage_percent_eq t f h]
      rfl
  · norm_num [getMemoryUsage, jsRoundInt, jsDiv, jsMul, jsRound]

/-- C6 (witness): the percent formula evaluated at 16 GB total, 4 GB free. -/
theorem C6_memory_rounding_order_witness :
    (getMemoryUsage (16 * 1024 ^ 3) (4 * 1024 ^ 3)).usagePercent =
      JSNum.num ((specRoundNearest
        ((getMemoryUsage (16 * 1024 ^ 3) (4 * 1024 ^ 3)).used /
          (getMemoryUsage (16 * 1024 ^ 3) (4 * 1024 ^ 3)).total * 100) : ℤ) : ℚ) :=
  (C6_memory_rounding_order.1 (16 * 1024 ^ 3) (4 * 1024 ^ 3)).2.2.2
    (by norm_num [getMemoryUsage, jsRoundInt])

/-- C7 (counterexample): a 1-byte total with 0 free bytes is a valid
reading (free ≤ total, total positive), but the total rounds to 0 GB, the
percent computation divides zero by zero, and `usedPercent` is NaN — a
value lying in no interval, in particular not in `[0,100]`. -/
theorem C7_tiny_total_counterexample :
    0 < (1 : ℕ) ∧ (0 : ℕ) ≤ 1 ∧
    (getMemoryUsage 1 0).usagePercent = JSNum.nan ∧
    ¬ (getMemoryUsage 1 0).usagePercent.between 0 100 := by
  have hnan : (getMemoryUsage 1 0).usagePercent = JSNum.nan := by
    norm_num [getMemoryUsage, jsRoundInt, jsDiv, jsMul, jsRound]
  refine ⟨Nat.one_pos, Nat.zero_le 1, hnan, ?_⟩
  rw [hnan]
  rintro ⟨q, hq, -, -⟩
  exact JSNum.noConfusion hq

/-- C7 (amended): for every valid memory reading (free bytes ≤ total
bytes) whose total converts to a positive rounded GB value, the result
satisfies `usedGB + freeGB = totalGB` exactly — hence within the claimed
0.01 tolerance — and `usedPercent` is a finite integer in `[0,100]`.
(When the total rounds to 0 GB the percent is non-finite; see C10.) -/
theorem C7_memory_invariants (t f : ℕ) (hf : f ≤ t)
    (hpos : 0 < (getMemoryUsage t f).total) :
    (getMemoryUsage t f).used + (getMemoryUsage t f).free = (getMemoryUsage t f).total ∧
    ∃ p : ℤ, (getMemoryUsage t f).usagePercent = JSNum.num (p : ℚ) ∧ 0 ≤ p ∧ p ≤ 100 := by
  have hfree_le : (getMemoryUsage t f).free ≤ (getMemoryUsage t f).total := by
    rw [getMemoryUsage_total_def, getMemoryUsage_free_def]
    have hb : jsRoundInt ((f : ℚ) / 1024 / 1024 / 1024 * 100) ≤
        jsRoundInt ((t : ℚ) / 1024 / 1024 / 1024 * 100) := by
      apply Int.floor_le_floor
      have hft : (f : ℚ) ≤ (t : ℚ) := by exact_mod_cast hf
      gcongr
    have hc : ((jsRoundInt ((f : ℚ) / 1024 / 1024 / 1024 * 100) : ℤ) : ℚ) ≤
        ((jsRoundInt ((t : ℚ) / 1024 / 1024 / 1024 * 100) : ℤ) : ℚ) := by exact_mod_cast hb
    linarith
  have hfree_nonneg : 0 ≤ (getMemoryUsage t f).free := by
    rw [getMemoryUsage_free_def]
    have hb : 0 ≤ jsRoundInt ((f : ℚ) / 1024 / 1024 / 1024 * 100) := by
      apply Int.le_floor.mpr
      positivity
    have hc : (0 : ℚ) ≤ ((jsRoundInt ((f : ℚ) / 1024 / 1024 / 1024 * 100) : ℤ) : ℚ) := by
      exact_mod_cast hb
    linarith
  have hused := getMemoryUsage_used_eq t f
  have hused_nonneg : 0 ≤ (getMemoryUsage t f).used := by
    rw [hused]
    linarith
  have hused_le : (getMemoryUsage t f).used ≤ (getMemoryUsage t f).total := by
    rw [hused]
    linarith
  have hne : (getMemoryUsage t f).total ≠ 0 := ne_of_gt hpos
  refine ⟨by rw [hused]; ring, ⟨⌊(getMemoryUsage t f).used / (getMemoryUsage t f).total * 100 + 1/2⌋, getMemoryUsage_percent_eq t f hne, ?_, ?_⟩⟩
  · apply Int.le_floor.mpr
    have : 0 ≤ (getMemoryUsage t f).used / (getMemoryUsage t f).total := by positivity
    push_cast
    linarith
  · have hratio : (getMemoryUsage t f).used / (getMemoryUsage t f).total ≤ 1 :=
      (div_le_one hpos).mpr hused_le
    have h100 : ⌊(getMemoryUsage t f).used / (getMemoryUsage t f).total * 100 + 1/2⌋ ≤
        ⌊(100 : ℚ) + 1/2⌋ := by
      apply Int.floor_le_floor
      linarith
    have : ⌊(100 : ℚ) + 1/2⌋ = 100 := by norm_num
    omega

/-- C7 (witness): the invariants hold at 16 GB total with 4 GB free. -/
theorem C7_memory_invariants_witness :
    (getMemoryUsage (16 * 1024 ^ 3) (4 * 1024 ^ 3)).used +
        (getMemoryUsage (16 * 1024 ^ 3) (4 * 1024 ^ 3)).free =
      (getMemoryUsage (16 * 1024 ^ 3) (4 * 1024 ^ 3)).total ∧
    ∃ p : ℤ, (getMemoryUsage (16 * 1024 ^ 3) (4 * 1024 ^ 3)).usagePercent = JSNum.num (p : ℚ) ∧
      0 ≤ p ∧ p ≤ 100 :=
  C7_memory_invariants (16 * 1024 ^ 3) (4 * 1024 ^ 3) (by norm_num)
    (by norm_num [getMemoryUsage, jsRoundInt])

/-- JavaScript division of a finite numerator by positive zero. -/
theorem jsDiv_num_zero (a : ℚ) :
    jsDiv (JSNum.num a) (JSNum.num 0) =
      if a = 0 then JSNum.nan else if 0 < a then JSNum.inf else JSNum.ninf := by
  show (if (0 : ℚ) = 0 then (if a = 0 then JSNum.nan else if 0 < a then JSNum.inf else JSNum.ninf)
      else JSNum.num (a / 0)) = _
  rw [if_pos rfl]

/-- C10: the `usedPercent` division of `getMemoryUsage` is unguarded —
whenever the OS-reported total memory rounds to 0 GB, the stored
`usagePercent` is a non-finite number (NaN or a signed infinity), with no
0-defaulting analogous to the contract specified for the CPU sampler. -/
theorem C10_percent_unguarded (t f : ℕ) (h : (getMemoryUsage t f).total = 0) :
    (getMemoryUsage t f).usagePercent.isFinite = false := by
  rw [getMemoryUsage_percent_def, h]
  rcases lt_trichotomy (getMemoryUsage t f).used 0 with hu | hu | hu
  · rw [jsDiv_num_zero, if_neg (ne_of_lt hu), if_neg (not_lt.mpr hu.le)]
    norm_num [jsMul, jsRound, JSNum.isFinite]
  · rw [jsDiv_num_zero, if_pos hu]
    norm_num [jsMul, jsRound, JSNum.isFinite]
  · rw [jsDiv_num_zero, if_neg (ne_of_gt hu), if_pos hu]
    norm_num [jsMul, jsRound, JSNum.isFinite]

/-- C10 (witness): with a 1-byte reported total the rounded total is 0 GB
and the stored percent is not finite. -/
theorem C10_percent_unguarded_witness :
    (getMemoryUsage 1 0).total = 0 ∧ (getMemoryUsage 1 0).usagePercent.isFinite = false :=
  ⟨by norm_num [getMemoryUsage, jsRoundInt],
    C10_percent_unguarded 1 0 (by norm_num [getMemoryUsage, jsRoundInt])⟩

/-!
Helper lemmas about `mapIdxFrom`, used to show the position-derived ids of
the parsed records are `1, 2, …` and hence pairwise distinct and at
most 10 after `slice(0, 10)`.
-/

theorem mapIdxFrom_map {α β γ : Type} (g : β → γ) (f : ℕ → α → β) (n : ℕ) (l : List α) :
    (mapIdxFrom f n l).map g = mapIdxFrom (fun i a => g (f i a)) n l := by
  induction l generalizing n with
  | nil => rfl
  | cons a as ih => simp [mapIdxFrom, ih]

theorem mapIdxFrom_take {α β : Type} (f : ℕ → α → β) (k : ℕ) (n : ℕ) (l : List α) :
    (mapIdxFrom f n l).take k = mapIdxFrom f n (l.take k) := by
  induction l generalizing n k with
  | nil => simp [mapIdxFrom]
  | cons a as ih =>
    cases k with
    | zero => simp [mapIdxFrom]
    | succ k => simp [mapIdxFrom, ih]

theorem mapIdxFrom_length {α β : Type} (f : ℕ → α → β) (n : ℕ) (l : List α) :
    (mapIdxFrom f n l).length = l.length := by
  induction l generalizing n with
  | nil => rfl
  | cons a as ih => simp [mapIdxFrom, ih]

theorem mapIdxFrom_ids_mem {α : Type} (n : ℕ) (l : List α) (x : ℤ)
    (hx : x ∈ mapIdxFrom (fun i _ => (i : ℤ) + 1) n l) :
    (n : ℤ) + 1 ≤ x ∧ x ≤ (n : ℤ) + l.length := by
  induction l generalizing n with
  | nil => simp [mapIdxFrom] at hx
  | cons a as ih =>
    simp only [mapIdxFrom, List.mem_cons] at hx
    rcases hx with h | h
    · subst h
      simp only [List.length_cons]
      push_cast
      omega
    · have := ih (n + 1) h
      simp only [List.length_cons]
      push_cast at this ⊢
      omega

theorem mapIdxFrom_ids_nodup {α : Type} (n : ℕ) (l : List α) :
    (mapIdxFrom (fun i _ => (i : ℤ) + 1) n l).Nodup := by
  induction l generalizing n with
  | nil => exact List.nodup_nil
  | cons a as ih =>
    refine List.nodup_cons.mpr ⟨fun hmem => ?_, ih (n + 1)⟩
    have := mapIdxFrom_ids_mem (n + 1) as _ hmem
    push_cast at this
    omega

theorem parseUnix_ids (stdout : String) :
    (parseUnix stdout).map ProcessRecord.id =
      mapIdxFrom (fun i _ => (i : ℤ) + 1) 0 ((jsSplitChar '\n' (jsTrim stdout)).drop 1) := by
  rw [parseUnix, mapIdxFrom_map]
  rfl

theorem parseWindows_ids (rand : ℕ → ℚ × ℚ) (stdout : String) :
    (parseWindows rand stdout).map ProcessRecord.id =
      mapIdxFrom (fun i _ => (i : ℤ) + 1) 0 ((jsSplitChar '\n' (jsTrim stdout)).take 15) := by
  rw [parseWindows, mapIdxFrom_map]
  rfl

theorem real_ids (isWindows : Bool) (rand : ℕ → ℚ × ℚ) (stdout : String) :
    ((if isWindows then parseWindows rand stdout else parseUnix stdout).map ProcessRecord.id) =
      mapIdxFrom (fun i _ => (i : ℤ) + 1) 0
        (if isWindows then (jsSplitChar '\n' (jsTrim stdout)).take 15
          else (jsSplitChar '\n' (jsTrim stdout)).drop 1) := by
  cases isWindows
  · exact parseUnix_ids stdout
  · exact parseWindows_ids rand stdout

/-- C9: within any single snapshot returned by `getProcesses`, the `id`
fields are pairwise distinct: real records carry ids `1 … n` by position,
the five synthetic records carry ids `s0+0 … s4+4` from five consecutive
(monotone) `Date.now()` reads, and any real clock value exceeds 10, the
largest possible real-record id. -/
theorem C9_ids_pairwise_distinct (isWindows : Bool) (res : ExecResult) (rand : ℕ → ℚ × ℚ)
    (s0 s1 s2 s3 s4 : ℤ) (h01 : s0 ≤ s1) (h12 : s1 ≤ s2) (h23 : s2 ≤ s3) (h34 : s3 ≤ s4)
    (hclock : 10 < s0) :
    ((getProcesses isWindows res rand s0 s1 s2 s3 s4).map ProcessRecord.id).Nodup := by
  cases res with
  | fail => exact List.nodup_nil
  | ok stdout =>
    have hform : getProcesses isWindows (ExecResult.ok stdout) rand s0 s1 s2 s3 s4 =
        simulatedProcesses s0 s1 s2 s3 s4 ++
          (if isWindows then parseWindows rand stdout else parseUnix stdout).take 10 := rfl
    rw [hform, List.map_append]
    have hsim : (simulatedProcesses s0 s1 s2 s3 s4).map ProcessRecord.id =
        [s0, s1 + 1, s2 + 2, s3 + 3, s4 + 4] := rfl
    have hreal : ((if isWindows then parseWindows rand stdout else parseUnix stdout).take 10).map
          ProcessRecord.id =
        mapIdxFrom (fun i _ => (i : ℤ) + 1) 0
          ((if isWindows then (jsSplitChar '\n' (jsTrim stdout)).take 15
            else (jsSplitChar '\n' (jsTrim stdout)).drop 1).take 10) := by
      rw [List.map_take, real_ids, mapIdxFrom_take]
    refine List.Nodup.append ?_ ?_ ?_
    · rw [hsim]
      simp only [List.nodup_cons, List.mem_cons, List.mem_singleton, List.not_mem_nil,
        List.nodup_nil, or_false, not_or, and_true, not_false_eq_true]
      omega
    · rw [hreal]
      exact mapIdxFrom_ids_nodup 0 _
    · intro x hx1 hx2
      rw [hsim] at hx1
      rw [hreal] at hx2
      have hb := mapIdxFrom_ids_mem 0 _ x hx2
      have hlen : (((if isWindows then (jsSplitChar '\n' (jsTrim stdout)).take 15
          else (jsSplitChar '\n' (jsTrim stdout)).drop 1).take 10).length : ℤ) ≤ 10 := by
        have := List.length_take_le 10
          (if isWindows then (jsSplitChar '\n' (jsTrim stdout)).take 15
            else (jsSplitChar '\n' (jsTrim stdout)).drop 1)
        exact_mod_cast this
      simp only [List.mem_cons, List.mem_singleton, List.not_mem_nil, or_false] at hx1
      push_cast at hb
      omega

/-- C9 (witness): a concrete Unix snapshot with two parsed lines and clock
reads 100 … 104 has pairwise-distinct ids. -/
theorem C9_ids_pairwise_distinct_witness :
    ((getProcesses false (ExecResult.ok "PID\n 1 0 2.0 3.0 bash\n 2 0 1.0 2.0 sh")
        (fun _ => (0, 0)) 100 101 102 103 104).map ProcessRecord.id).Nodup :=
  C9_ids_pairwise_distinct false (ExecResult.ok "PID\n 1 0 2.0 3.0 bash\n 2 0 1.0 2.0 sh")
    (fun _ => (0, 0)) 100 101 102 103 104 (by decide) (by decide) (by decide) (by decide)
    (by decide)
